import Mathlib

/-!
Verification of the article aggregation and consistency engine of the
medium-clone API (src/lib/articles controller).  The controller is embedded
shallowly: database tables become lists of rows, the knex query chains become
list operations, and the engine-specific error objects inspected through
parseInt become explicit JavaScript values.  Store round trips that may fail
(inserts hitting unique constraints) take their outcome as an explicit
oracle argument, mirroring the try/catch structure of the source.
-/

namespace MediumClone

/-! ## JavaScript values

The controller inspects store errors via parseInt(err.errno, 10) and
parseInt(err.code, 10), extracts the count column via
countRes.count || countRes["count(*)"], and coerces it with Number(...).
We model the JavaScript values flowing through those expressions. -/

/-- A JavaScript value as it appears in the count-extraction and
error-inspection code paths. -/
inductive JsVal where
  | undef : JsVal
  | num : Int → JsVal
  | str : String → JsVal
  | bool : Bool → JsVal
deriving DecidableEq, Repr

/-- JavaScript truthiness for the values we model. -/
def truthy : JsVal → Bool
  | .undef => false
  | .num n => n != 0
  | .str s => s != ""
  | .bool b => b

/-- The JavaScript a || b operator on values. -/
def jsOr (a b : JsVal) : JsVal := if truthy a then a else b

/-- The numeric value of a decimal digit character. -/
def digitVal (c : Char) : Option Nat :=
  if 48 ≤ c.toNat ∧ c.toNat ≤ 57 then some (c.toNat - 48) else none

/-- Decimal parsing of a non-empty all-digit string; none otherwise.  The
strings the controller coerces are decimal count and error-code strings. -/
def parseDec (s : String) : Option Nat :=
  if s.data.isEmpty then none
  else s.data.foldl
    (fun acc c => acc.bind (fun n => (digitVal c).map (fun d => 10 * n + d)))
    (some 0)

/-- The JavaScript Number(x) coercion; none stands for NaN.  The strings
reaching it in the source are decimal count strings. -/
def jsNumber : JsVal → Option Int
  | .undef => none
  | .num n => some n
  | .str s => if s = "" then some 0 else (parseDec s).map Int.ofNat
  | .bool b => some (if b then 1 else 0)

/-- The JavaScript parseInt(x, 10) coercion; none stands for NaN.  The
strings reaching it in the source are decimal error-code strings. -/
def jsParseInt : JsVal → Option Int
  | .undef => none
  | .num n => some n
  | .str s => (parseDec s).map Int.ofNat
  | .bool _ => none

/-! ## Store data model

Row types follow the columns the controller touches.  Identifiers are
opaque; we use Nat.  Timestamps are opaque ordered values; we use Nat. -/

/-- A row of the articles table. -/
structure Article where
  id : Nat
  slug : String
  title : String
  description : String
  body : String
  author : Nat
  favoritesCount : Nat
  createdAt : Nat
  updatedAt : Nat
deriving DecidableEq, Repr

/-- A row of the users table (the projection the controller selects). -/
structure User where
  id : Nat
  username : String
  bio : String
  image : String
deriving DecidableEq, Repr

/-- A row of the tags table. -/
structure Tag where
  id : Nat
  name : String
deriving DecidableEq, Repr

/-- A row of the articles_tags join table. -/
structure ArticleTagRow where
  id : Nat
  article : Nat
  tag : Nat
deriving DecidableEq, Repr

/-- A row of the favorites join table. -/
structure FavoriteRow where
  id : Nat
  user : Nat
  article : Nat
deriving DecidableEq, Repr

/-- A row of the followers join table; user is the followed user. -/
structure FollowerRow where
  id : Nat
  user : Nat
  follower : Nat
deriving DecidableEq, Repr

/-- The relational store the controller operates on. -/
structure Store where
  articles : List Article
  users : List User
  tags : List Tag
  articlesTags : List ArticleTagRow
  favorites : List FavoriteRow
  followers : List FollowerRow
deriving DecidableEq, Repr

/-! ## Errors -/

/-- The yup ValidationError the controller raises on ownership mismatch:
new ValidationError(["not owned by user"], "", "article"). -/
structure ValidationError where
  errors : List String
  value : String
  path : String
deriving DecidableEq, Repr

/-- The ownership-mismatch failure raised by put and del. -/
def notOwnedByUser : ValidationError := ⟨["not owned by user"], "", "article"⟩

/-- An engine-specific store error object; the controller only ever reads
err.errno and err.code. -/
structure DbError where
  errno : JsVal
  code : JsVal
deriving DecidableEq, Repr

/-- The recognition test the controller applies in every catch block:
parseInt(err.errno, 10) === 19 || parseInt(err.code, 10) === 23505. -/
def isUniqueViolation (e : DbError) : Bool :=
  jsParseInt e.errno == some 19 || jsParseInt e.code == some 23505

/-- Outcome of one store write, supplied as an oracle to the operations
that wrap writes in try/catch. -/
inductive DbResult where
  | ok : DbResult
  | err : DbError → DbResult
deriving DecidableEq, Repr

/-- A request failure: a deliberate validation failure or a propagated
store error. -/
inductive ReqError where
  | validation : ValidationError → ReqError
  | store : DbError → ReqError
deriving DecidableEq, Repr

/-! ## bySlug middleware

bySlug loads the article row by slug, attaches tagList, the author object,
and the viewer-relative favorited / following flags; the bundle is placed
in ctx.params for the downstream handler.  A missing author row makes the
source crash on author.following; we model that request as failing (none). -/

/-- The ctx.params bundle produced by bySlug. -/
structure ArticleCtx where
  row : Article
  author : User
  tagList : List String
  favorited : Bool
  following : Bool
deriving DecidableEq, Repr

/-- The bySlug middleware: article lookup by slug, tag list assembly,
author attachment, and per-viewer flag computation, translated line by
line from the controller. -/
def bySlugCtx (s : Store) (viewer : Option User) (slugArg : String) : Option ArticleCtx :=
  (s.articles.find? (fun a => a.slug == slugArg)).bind fun article =>
  (s.users.find? (fun u => u.id == article.author)).map fun author =>
    let tagsRelations := s.articlesTags.filter (fun r => r.article == article.id)
    let tagList :=
      if tagsRelations.length > 0 then
        (s.tags.filter (fun t =>
          (tagsRelations.map (fun r => r.tag)).contains t.id)).map (fun t => t.name)
      else []
    let following :=
      match viewer with
      | none => false
      | some u =>
        if u.username != author.username then
          decide ((s.followers.filter
            (fun f => f.user == author.id && f.follower == u.id)).length > 0)
        else false
    let favorited :=
      match viewer with
      | none => false
      | some u =>
        decide ((s.favorites.filter
          (fun f => f.user == u.id && f.article == article.id)).length > 0)
    { row := article, author := author, tagList := tagList,
      favorited := favorited, following := following }

/-- The author part of a single-article response: username, bio, image and
the viewer-relative following flag; the internal id is stripped by bySlug
after the handler ran. -/
structure AuthorView where
  username : String
  bio : String
  image : String
  following : Bool
deriving DecidableEq, Repr

/-- A materialized single-article response body. -/
structure ArticleView where
  id : Nat
  slug : String
  title : String
  description : String
  body : String
  favoritesCount : Nat
  createdAt : Nat
  updatedAt : Nat
  tagList : List String
  favorited : Bool
  author : AuthorView
deriving DecidableEq, Repr

/-- The response view assembled from the bySlug bundle (what getOne
serializes after bySlug deleted the author id). -/
def viewOfCtx (c : ArticleCtx) : ArticleView :=
  { id := c.row.id, slug := c.row.slug, title := c.row.title,
    description := c.row.description, body := c.row.body,
    favoritesCount := c.row.favoritesCount, createdAt := c.row.createdAt,
    updatedAt := c.row.updatedAt, tagList := c.tagList,
    favorited := c.favorited,
    author := { username := c.author.username, bio := c.author.bio,
                image := c.author.image, following := c.following } }

/-- The GET article-by-slug read: bySlug followed by getOne. -/
def bySlugView (s : Store) (viewer : Option User) (slugArg : String) : Option ArticleView :=
  (bySlugCtx s viewer slugArg).map viewOfCtx

/-! ## Delete -/

/-- The del handler: ownership assertion, then three deletions issued
together — the favorites delete is scoped to the calling user and the
article, the articles_tags and articles deletes to the article. -/
def del (s : Store) (callerId : Nat) (c : ArticleCtx) :
    Store × Except ValidationError Unit :=
  if c.author.id != callerId then
    (s, .error notOwnedByUser)
  else
    ({ s with
        favorites := s.favorites.filter
          (fun f => !(f.user == callerId && f.article == c.row.id)),
        articlesTags := s.articlesTags.filter (fun r => r.article != c.row.id),
        articles := s.articles.filter (fun a => a.id != c.row.id) },
     .ok ())

/-! ## Favorite and unfavorite -/

/-- The favorite.post handler: if the bySlug bundle already says favorited,
return the current article untouched; otherwise insert a favorites row and
increment the favorites counter of the article row, then update the bundle. -/
def favoritePost (s : Store) (callerId : Nat) (c : ArticleCtx) (freshId : Nat) :
    Store × ArticleCtx :=
  if c.favorited then (s, c)
  else
    ({ s with
        favorites := s.favorites ++ [⟨freshId, callerId, c.row.id⟩],
        articles := s.articles.map (fun a =>
          if a.id == c.row.id then { a with favoritesCount := a.favoritesCount + 1 }
          else a) },
     { c with favorited := true,
              row := { c.row with favoritesCount := c.row.favoritesCount + 1 } })

/-- The favorite.del handler: if the bySlug bundle says not favorited,
return the current article untouched; otherwise delete the favorites row of
the caller for this article and decrement the counter. -/
def favoriteDel (s : Store) (callerId : Nat) (c : ArticleCtx) :
    Store × ArticleCtx :=
  if !c.favorited then (s, c)
  else
    ({ s with
        favorites := s.favorites.filter
          (fun f => !(f.user == callerId && f.article == c.row.id)),
        articles := s.articles.map (fun a =>
          if a.id == c.row.id then { a with favoritesCount := a.favoritesCount - 1 }
          else a) },
     { c with favorited := false,
              row := { c.row with favoritesCount := c.row.favoritesCount - 1 } })

/-- A full favorite request: the bySlug middleware recomputes the bundle
from the store, then favorite.post runs on it. -/
def favoriteRequest (s : Store) (caller : User) (slugArg : String) (freshId : Nat) :
    Store × Option ArticleCtx :=
  match bySlugCtx s (some caller) slugArg with
  | none => (s, none)
  | some c =>
    let r := favoritePost s caller.id c freshId
    (r.1, some r.2)

/-- A full unfavorite request: bySlug then favorite.del. -/
def unfavoriteRequest (s : Store) (caller : User) (slugArg : String) :
    Store × Option ArticleCtx :=
  match bySlugCtx s (some caller) slugArg with
  | none => (s, none)
  | some c =>
    let r := favoriteDel s caller.id c
    (r.1, some r.2)

/-! ## Create (post)

The post handler inserts the article row inside a try/catch: a recognized
unique violation triggers exactly one retry with a random six-character
suffix appended to the slug; any other error, and any error of the retry,
propagates.  The tag phase then inserts each tag row, absorbing recognized
unique violations, re-queries the tags by name and inserts the
articles_tags relations. -/

/-- The article-insert statement of post with its catch block.  r1 and r2
are the store outcomes of the first and (if reached) second insert; the Nat
component counts insert attempts issued. -/
def insertArticleWithRetry (s : Store) (article : Article) (suffix : String)
    (r1 r2 : DbResult) : Except DbError (Store × Article) × Nat :=
  match r1 with
  | .ok => (.ok ({ s with articles := s.articles ++ [article] }, article), 1)
  | .err e =>
    if isUniqueViolation e then
      let retried := { article with slug := article.slug ++ "-" ++ suffix }
      match r2 with
      | .ok => (.ok ({ s with articles := s.articles ++ [retried] }, retried), 2)
      | .err e2 => (.error e2, 2)
    else (.error e, 1)

/-- The per-tag insert loop of post and put: each tag row is inserted once;
a recognized unique violation is absorbed and the loop continues; any other
error stops the loop and is reported.  Returns the store after the attempts
made, the propagated error if any, and the number of insert attempts. -/
def insertTagsLoop (outcome : Nat → DbResult) :
    Nat → Store → List Tag → Store × Option DbError × Nat
  | i, s, [] => (s, none, i)
  | i, s, t :: ts =>
    match outcome i with
    | .ok => insertTagsLoop outcome (i + 1) { s with tags := s.tags ++ [t] } ts
    | .err e =>
      if isUniqueViolation e then insertTagsLoop outcome (i + 1) s ts
      else (s, some e, i + 1)

/-- The relation-resolution step: re-query the tags table by the requested
names and insert one articles_tags row per row found. -/
def resolveTagRelations (s : Store) (articleId : Nat) (names : List String)
    (freshRelId : Nat → Nat) : Store :=
  let found := s.tags.filter (fun t => names.contains t.name)
  let relations := found.enum.map (fun p => ArticleTagRow.mk (freshRelId p.1) articleId p.2.id)
  { s with articlesTags := s.articlesTags ++ relations }

/-- The tag phase of post: runs only for a non-empty tag list; inserts the
tag rows through the absorbing loop, then resolves the relations.  The
freshTagId argument stands for the uuid() calls minting tag row ids. -/
def postTagPhase (s : Store) (articleId : Nat) (tagList : List String)
    (tagOutcome : Nat → DbResult) (freshTagId freshRelId : Nat → Nat) :
    Store × Option DbError :=
  if tagList.length > 0 then
    match insertTagsLoop tagOutcome 0 s
        (tagList.enum.map (fun p => Tag.mk (freshTagId p.1) p.2)) with
    | (s1, some e, _) => (s1, some e)
    | (s1, none, _) =>
      (resolveTagRelations s1 articleId
        ((tagList.enum.map (fun p => Tag.mk (freshTagId p.1) p.2)).map (fun t => t.name))
        freshRelId, none)
  else (s, none)

/-! ## Update (put) -/

/-- The caller-supplied article fields of an update request; absent fields
are none.  Object.assign merges whatever keys the caller sent, so fields
the update statement must not write (the favorites counter, the creation
timestamp) are representable here. -/
structure UpdateFields where
  title : Option String := none
  description : Option String := none
  body : Option String := none
  tagList : Option (List String) := none
  favoritesCount : Option Nat := none
  createdAt : Option Nat := none
deriving DecidableEq, Repr

/-- Object.assign({}, article, fields) followed by
newArticle.author = newArticle.author.id, projected to the article columns. -/
def mergeArticle (c : ArticleCtx) (f : UpdateFields) : Article :=
  { id := c.row.id
    slug := c.row.slug
    title := f.title.getD c.row.title
    description := f.description.getD c.row.description
    body := f.body.getD c.row.body
    author := c.author.id
    favoritesCount := f.favoritesCount.getD c.row.favoritesCount
    createdAt := f.createdAt.getD c.row.createdAt
    updatedAt := c.row.updatedAt }

/-- The update statement writes only the picked columns:
_.pick(newArticle, ["title", "slug", "body", "description", "updatedAt"]). -/
def applyArticleUpdate (row : Article) (n : Article) : Article :=
  { row with title := n.title, slug := n.slug, body := n.body,
             description := n.description, updatedAt := n.updatedAt }

/-- db("articles").update(picked).where({ id: targetId }). -/
def writeArticleRow (s : Store) (targetId : Nat) (n : Article) : Store :=
  { s with articles := s.articles.map (fun a =>
      if a.id == targetId then applyArticleUpdate a n else a) }

/-- db("articles_tags").del().where({ article: articleId }). -/
def deleteArticleTags (s : Store) (articleId : Nat) : Store :=
  { s with articlesTags := s.articlesTags.filter (fun r => r.article != articleId) }

/-- The lodash _.difference operation: the members of xs not contained in
any of the exclusion lists.  The source calls it with no exclusion lists at
all, which returns a copy of xs. -/
def lodashDifference (xs : List String) (excls : List (List String)) : List String :=
  xs.filter (fun x => !(excls.any (fun l => l.contains x)))

/-- The tag section of put, translated from the two if statements of the
source: an explicitly empty list clears the relations; a non-empty list
replaces them when the condition
_.difference(article.tagList).length || _.difference(fields.tagList).length
holds (both calls pass a single list, so no exclusion list is given).  The
Bool result records whether an articles_tags delete was issued. -/
def putTagPhase (s : Store) (c : ArticleCtx) (f : UpdateFields)
    (tagOutcome : Nat → DbResult) (freshTagId freshRelId : Nat → Nat) :
    (Store × Option DbError) × Bool :=
  match f.tagList with
  | none => ((s, none), false)
  | some l =>
    if l.length == 0 then
      ((deleteArticleTags s c.row.id, none), true)
    else
      if (lodashDifference c.tagList []).length != 0
          || (lodashDifference l []).length != 0 then
        let s1 := deleteArticleTags s c.row.id
        let newTags := l.enum.map (fun p => Tag.mk (freshTagId p.1) p.2)
        match insertTagsLoop tagOutcome 0 s1 newTags with
        | (s2, some e, _) => ((s2, some e), true)
        | (s2, none, _) =>
          ((resolveTagRelations s2 c.row.id (newTags.map (fun t => t.name)) freshRelId,
            none), true)
      else ((s, none), false)

/-- The merged, re-validated article of put: slug recomputed only when a
title was supplied, update time stamped.  slugOfTitle stands for the slug
library call, now for the Date stamp. -/
def putMergedArticle (c : ArticleCtx) (f : UpdateFields)
    (slugOfTitle : String → String) (now : Nat) : Article :=
  let merged := mergeArticle c f
  let merged :=
    if f.title.isSome then { merged with slug := slugOfTitle merged.title } else merged
  { merged with updatedAt := now }

/-- The tail of put after a successful update statement wrote n: the tag
section runs, a propagated tag error fails the request. -/
def putAfterWrite (s : Store) (c : ArticleCtx) (f : UpdateFields) (n : Article)
    (tagOutcome : Nat → DbResult) (freshTagId freshRelId : Nat → Nat) :
    Store × Except ReqError Article :=
  match putTagPhase (writeArticleRow s c.row.id n) c f tagOutcome freshTagId freshRelId with
  | ((s2, some e), _) => (s2, .error (.store e))
  | ((s2, none), _) => (s2, .ok n)

/-- The put handler: ownership assertion, merge and re-validation, slug
recomputation when a title was supplied, update-time stamping, the
update statement with its retry-once-on-unique-violation catch, then the
tag section.  suffix stands for the random retry suffix, r1 and r2 for
the update statement outcomes. -/
def put (s : Store) (callerId : Nat) (c : ArticleCtx) (f : UpdateFields)
    (slugOfTitle : String → String) (now : Nat) (suffix : String)
    (r1 r2 : DbResult) (tagOutcome : Nat → DbResult)
    (freshTagId freshRelId : Nat → Nat) :
    Store × Except ReqError Article :=
  if c.author.id != callerId then
    (s, .error (.validation notOwnedByUser))
  else
    let merged := putMergedArticle c f slugOfTitle now
    match r1 with
    | .ok => putAfterWrite s c f merged tagOutcome freshTagId freshRelId
    | .err e =>
      if isUniqueViolation e then
        match r2 with
        | .ok =>
          putAfterWrite s c f { merged with slug := merged.slug ++ "-" ++ suffix }
            tagOutcome freshTagId freshRelId
        | .err e2 => (s, .error (.store e2))
      else (s, .error (.store e))

/-! ## The list query (get)

The get handler builds one row query — articles left-joined with users,
articles_tags, tags, and the favorites and followers joins pre-filtered to
the viewer id inside the join condition — and one count query sharing the
filter predicates.  We embed the row query by evaluating the joins as list
products per article, in the join order of the source: users, then
articles_tags and tags, then favorites, then followers. -/

/-- One flat row of the joined article query.  tag carries the joined tag
id and name when the tags join matched; articleFavorited and
authorFollowing carry the joined favorites.id and followers.id markers. -/
structure JoinedRow where
  article : Article
  author : Option User
  tag : Option (Nat × String)
  articleFavorited : Option Nat
  authorFollowing : Option Nat
deriving DecidableEq, Repr

/-- SQL left-join row multiplication against one base row: no match yields
a single null row, otherwise one row per match. -/
def leftJoinRows {α : Type} (ms : List α) : List (Option α) :=
  if ms.isEmpty then [none] else ms.map some

/-- The articles_tags and tags left joins for one article: each
articles_tags match is joined against tags on its tag id; a missing
articles_tags match leaves the tag columns null. -/
def tagJoinRows (s : Store) (a : Article) : List (Option (Nat × String)) :=
  (leftJoinRows (s.articlesTags.filter (fun r => r.article == a.id))).flatMap
    (fun relOpt =>
      match relOpt with
      | none => [none]
      | some rel =>
        (leftJoinRows (s.tags.filter (fun t => t.id == rel.tag))).map
          (fun tOpt => tOpt.map (fun t => (t.id, t.name))))

/-- The viewer-independent join columns of one article: the users left
join paired with the tag join rows, in join order. -/
def contentCombos (s : Store) (a : Article) : List (Option User × Option (Nat × String)) :=
  (leftJoinRows (s.users.filter (fun u => u.id == a.author))).flatMap
    (fun au => (tagJoinRows s a).map (fun t => (au, t)))

/-- The viewer-relative join columns: the favorites join is pre-filtered
inside its join condition to favorites.user in [viewer id], the followers
join to followers.follower in [viewer id]; an anonymous viewer matches
nothing. -/
def viewerMarks (s : Store) (viewerId : Option Nat) (a : Article) :
    List (Option Nat × Option Nat) :=
  (leftJoinRows (s.favorites.filter
      (fun f => f.article == a.id && some f.user == viewerId))).flatMap
    (fun favOpt =>
      (leftJoinRows (s.followers.filter
          (fun fo => fo.user == a.author && some fo.follower == viewerId))).map
        (fun folOpt => (favOpt.map (fun f => f.id), folOpt.map (fun fo => fo.id))))

/-- All joined rows produced for one article, ordered as the nested join
product: users and tag columns outermost, favorites and followers " +
"innermost. -/
def joinedRowsFor (s : Store) (viewerId : Option Nat) (a : Article) : List JoinedRow :=
  (contentCombos s a).flatMap (fun c =>
    (viewerMarks s viewerId a).map (fun m =>
      { article := a, author := c.1, tag := c.2,
        articleFavorited := m.1, authorFollowing := m.2 }))

/-- The shared filter predicate of the row query and the count query: the
author filter restricts through a users sub-query, the favorited filter
through favorites and users sub-queries, the tag filter through
articles_tags and tags sub-queries; an empty filter list adds no
restriction. -/
def articleMatchesFilters (s : Store) (authorF favoritedF tagF : List String)
    (a : Article) : Bool :=
  (authorF.isEmpty
      || ((s.users.filter (fun u => authorF.contains u.username)).map
            (fun u => u.id)).contains a.author)
    && (favoritedF.isEmpty
      || ((s.favorites.filter (fun f =>
              ((s.users.filter (fun u => favoritedF.contains u.username)).map
                (fun u => u.id)).contains f.user)).map
            (fun f => f.article)).contains a.id)
    && (tagF.isEmpty
      || ((s.articlesTags.filter (fun r =>
              ((s.tags.filter (fun t => tagF.contains t.name)).map
                (fun t => t.id)).contains r.tag)).map
            (fun r => r.article)).contains a.id)

/-- The count query: db("articles").count() under the same filters. -/
def countQuery (s : Store) (authorF favoritedF tagF : List String) : Nat :=
  (s.articles.filter (articleMatchesFilters s authorF favoritedF tagF)).length

/-- orderBy("articles.created_at", "desc"); ties are in unspecified order,
embedded as a fixed sort. -/
def sortByCreatedAtDesc (l : List Article) : List Article :=
  l.insertionSort (fun a b => b.createdAt ≤ a.createdAt)

/-- All rows of the joined row query, before pagination. -/
def rowQueryAll (s : Store) (viewerId : Option Nat)
    (authorF favoritedF tagF : List String) : List JoinedRow :=
  (sortByCreatedAtDesc
      (s.articles.filter (articleMatchesFilters s authorF favoritedF tagF))).flatMap
    (joinedRowsFor s viewerId)

/-- The paginated row query: limit and offset apply to the joined rows. -/
def rowQuery (s : Store) (viewerId : Option Nat)
    (authorF favoritedF tagF : List String) (limit offset : Nat) : List JoinedRow :=
  ((rowQueryAll s viewerId authorF favoritedF tagF).drop offset).take limit

/-- One materialized article of the list response, after the post-mapping
step of get (Boolean flags, tag names, author id stripped). -/
structure MatArticle where
  article : Article
  authorUsername : Option String
  authorBio : Option String
  authorImage : Option String
  tagList : List String
  favorited : Bool
  following : Bool
deriving DecidableEq, Repr

/-- The rows of one article group. -/
def groupRows (rows : List JoinedRow) (i : Nat) : List JoinedRow :=
  rows.filter (fun r => r.article.id == i)

/-- Modelled from the spec: the join-js materialization driven by
relationsMaps (src/lib/relations-map.js is not under src/).  Grouping key
is the article id; the tag list is the deduplicated set of joined tag
names across the rows of the group; favorited and following are true iff
at least one row of the group carries the corresponding non-null marker;
the author id is stripped after the following flag is composed. -/
def materializeRows (rows : List JoinedRow) : List MatArticle :=
  ((rows.map (fun r => r.article.id)).dedup).filterMap (fun i =>
    match groupRows rows i with
    | [] => none
    | r :: rs =>
      some { article := r.article,
             authorUsername := r.author.map (fun u => u.username),
             authorBio := r.author.map (fun u => u.bio),
             authorImage := r.author.map (fun u => u.image),
             tagList := (((r :: rs).filterMap (fun q => q.tag)).dedup).map
               (fun p => p.2),
             favorited := (r :: rs).any (fun q => q.articleFavorited.isSome),
             following := (r :: rs).any (fun q => q.authorFollowing.isSome) })

/-- The count result object returned by the store driver; get reads
countRes.count || countRes["count(*)"]. -/
structure CountRes where
  count : JsVal
  countStar : JsVal
deriving DecidableEq, Repr

/-- The count result of the engine family reporting a numeric count under
the "count(*)" key. -/
def sqliteCountRes (n : Nat) : CountRes :=
  { count := .undef, countStar := .num n }

/-- The count result of the engine family reporting the count as a decimal
string under the "count" key. -/
def pgCountRes (countStr : String) : CountRes :=
  { count := .str countStr, countStar := .undef }

/-- let articlesCount = countRes.count || countRes["count(*)"];
articlesCount = Number(articlesCount). -/
def extractArticlesCount (r : CountRes) : Option Int :=
  jsNumber (jsOr r.count r.countStar)

/-- The get handler: the materialized page and the coerced articlesCount;
countRepr is the representation the store driver uses for a count of n. -/
def getArticles (s : Store) (viewerId : Option Nat)
    (authorF favoritedF tagF : List String) (limit offset : Nat)
    (countRepr : Nat → CountRes) : List MatArticle × Option Int :=
  (materializeRows (rowQuery s viewerId authorF favoritedF tagF limit offset),
   extractArticlesCount (countRepr (countQuery s authorF favoritedF tagF)))

/-! ## Response author objects

The author part of every response is a JavaScript object; the source
strips the internal id from it (delete author.id after the handler in
bySlug, delete a.author.id in the get and feed mapping) or never includes
it (_.pick in post).  We model those objects as key-value lists. -/

/-- A JavaScript object as an ordered key-value list. -/
abbrev Obj : Type := List (String × JsVal)

/-- The keys of an object. -/
def objKeys (o : Obj) : List String := o.map (fun p => p.1)

/-- The delete operator on an object key. -/
def objDelete (o : Obj) (k : String) : Obj := o.filter (fun p => p.1 != k)

/-- Property assignment: replaces the value of an existing key, appends a
new key otherwise. -/
def objSet (o : Obj) (k : String) (v : JsVal) : Obj :=
  if (objKeys o).contains k then o.map (fun p => if p.1 == k then (k, v) else p)
  else o ++ [(k, v)]

/-- The lodash _.pick operation on an object. -/
def lodashPick (o : Obj) (ks : List String) : Obj :=
  ks.filterMap (fun k => (o.find? (fun p => p.1 == k)).map
    (fun p => (k, p.2)))

/-- The author row object as selected by bySlug:
db("users").first("username", "bio", "image", "id"). -/
def userToObj (u : User) : Obj :=
  [("username", .str u.username), ("bio", .str u.bio),
   ("image", .str u.image), ("id", .num u.id)]

/-- The author object of a bySlug-based response (getOne, put, favorite
post and del): the following flag is set on the selected author row, and
after the handler returns bySlug deletes the id. -/
def bySlugAuthorObj (u : User) (following : Bool) : Obj :=
  objDelete (objSet (userToObj u) "following" (.bool following)) "id"

/-- The author object of a get or feed list response: whatever object the
materializer assembled, after a.author.following is set and a.author.id is
deleted by the mapping step. -/
def listAuthorObj (author : Obj) (following : Bool) : Obj :=
  objDelete (objSet author "following" (.bool following)) "id"

/-- The author object of a post (create) response:
_.pick(ctx.state.user, ["username", "bio", "image"]) with following set to
false. -/
def postAuthorObj (u : User) : Obj :=
  objSet (lodashPick (userToObj u) ["username", "bio", "image"]) "following" (.bool false)

/-! ## Sample data for witnesses and counterexamples -/

/-- A sample user, author of the sample article. -/
def aliceU : User := { id := 1, username := "alice", bio := "ba", image := "ia" }

/-- A second sample user. -/
def bobU : User := { id := 2, username := "bob", bio := "bb", image := "ib" }

/-- A sample article authored by alice. -/
def sampleArticle : Article :=
  { id := 1, slug := "hello-world", title := "Hello World", description := "d",
    body := "b", author := 1, favoritesCount := 1, createdAt := 100, updatedAt := 100 }

/-- A sample store: one article by alice, tagged lorem, favorited by bob. -/
def sampleStore : Store :=
  { articles := [sampleArticle],
    users := [aliceU, bobU],
    tags := [{ id := 5, name := "lorem" }],
    articlesTags := [{ id := 7, article := 1, tag := 5 }],
    favorites := [{ id := 10, user := 2, article := 1 }],
    followers := [] }

/-- The bySlug bundle alice gets for the sample article. -/
def sampleCtx : ArticleCtx :=
  { row := sampleArticle, author := aliceU, tagList := ["lorem"],
    favorited := false, following := false }

/-! ## C1: state after delete -/

/-- C1 counterexample: alice, the author, successfully deletes the sample
article, yet the Favorite row of bob referencing that article remains in
the store (the favorites delete of del is scoped to the calling user), so
the delete does not remove all Favorite rows of the article. -/
theorem C1_counterexample :
    bySlugCtx sampleStore (some aliceU) "hello-world" = some sampleCtx ∧
    sampleCtx.author.id = 1 ∧
    (del sampleStore 1 sampleCtx).2 = .ok () ∧
    (del sampleStore 1 sampleCtx).1.articles = [] ∧
    { id := 10, user := 2, article := 1 } ∈ (del sampleStore 1 sampleCtx).1.favorites :=
  ⟨by decide, rfl, rfl, by decide, by decide⟩

/-- C1 (amended): after a successful delete by the author, no ArticleTag
row referencing the article and no Article row with its id remain, and no
Favorite row of the deleting author referencing the article remains;
Favorite rows of other users may survive. -/
theorem C1_delete_cleanup (s : Store) (callerId : Nat) (c : ArticleCtx)
    (hown : c.author.id = callerId) :
    (del s callerId c).2 = .ok () ∧
    (∀ r ∈ (del s callerId c).1.articlesTags, r.article ≠ c.row.id) ∧
    (∀ a ∈ (del s callerId c).1.articles, a.id ≠ c.row.id) ∧
    (∀ f ∈ (del s callerId c).1.favorites,
        ¬(f.user = callerId ∧ f.article = c.row.id)) := by
  have hb : (c.author.id != callerId) = false := by simp [hown]
  refine ⟨?_, ?_, ?_, ?_⟩
  · simp [del, hb]
  · intro r hr
    simp only [del, hb, Bool.false_eq_true, if_false] at hr
    simpa using (List.mem_filter.mp hr).2
  · intro a ha
    simp only [del, hb, Bool.false_eq_true, if_false] at ha
    simpa using (List.mem_filter.mp ha).2
  · intro f hf
    simp only [del, hb, Bool.false_eq_true, if_false] at hf
    have h2 := (List.mem_filter.mp hf).2
    rintro ⟨h3, h4⟩
    simp [h3, h4] at h2

/-- Witness for C1_delete_cleanup at the sample store. -/
theorem C1_delete_cleanup_witness :
    (del sampleStore 1 sampleCtx).2 = .ok () :=
  (C1_delete_cleanup sampleStore 1 sampleCtx rfl).1

/-! ## C9: ownership guard -/

/-- C9: an update or delete issued by a caller who is not the author fails
with the ValidationError naming the article field, and the store is
returned unchanged — no mutation was issued. -/
theorem C9_nonauthor_rejected (s : Store) (callerId : Nat) (c : ArticleCtx)
    (f : UpdateFields) (slugOfTitle : String → String) (now : Nat) (suffix : String)
    (r1 r2 : DbResult) (tagOutcome : Nat → DbResult) (freshTagId freshRelId : Nat → Nat)
    (hown : c.author.id ≠ callerId) :
    put s callerId c f slugOfTitle now suffix r1 r2 tagOutcome freshTagId freshRelId
        = (s, .error (.validation notOwnedByUser)) ∧
    del s callerId c = (s, .error notOwnedByUser) ∧
    notOwnedByUser.path = "article" ∧
    notOwnedByUser.errors = ["not owned by user"] := by
  have hb : (c.author.id != callerId) = true := by simp [hown]
  refine ⟨?_, ?_, rfl, rfl⟩ <;> simp [put, del, hb]

/-- Witness for C9_nonauthor_rejected: bob is not the author. -/
theorem C9_nonauthor_rejected_witness :
    del sampleStore 2 sampleCtx = (sampleStore, .error notOwnedByUser) :=
  (C9_nonauthor_rejected sampleStore 2 sampleCtx {} id 0 "x" .ok .ok
      (fun _ => .ok) id id (by decide)).2.1

/-! ## C4: slug collision retry policy -/

/-- C4: a first insert failing with a recognized unique violation (numeric
errno 19 or code 23505) triggers exactly one retry with the random suffix
appended to the slug; a failure of the retry, or any unrecognized error of
the first attempt, is propagated with no further attempt. -/
theorem C4_slug_retry_once (s : Store) (article : Article) (suffix : String)
    (e eAny : DbError) (r2 : DbResult) :
    (insertArticleWithRetry s article suffix .ok r2
        = (.ok ({ s with articles := s.articles ++ [article] }, article), 1)) ∧
    (isUniqueViolation e = true →
      insertArticleWithRetry s article suffix (.err e) .ok
        = (.ok ({ s with articles := s.articles ++
              [{ article with slug := article.slug ++ "-" ++ suffix }] },
            { article with slug := article.slug ++ "-" ++ suffix }), 2)) ∧
    (isUniqueViolation e = true →
      insertArticleWithRetry s article suffix (.err e) (.err eAny) = (.error eAny, 2)) ∧
    (isUniqueViolation e = false →
      insertArticleWithRetry s article suffix (.err e) r2 = (.error e, 1)) ∧
    isUniqueViolation e
      = (jsParseInt e.errno == some 19 || jsParseInt e.code == some 23505) := by
  refine ⟨rfl, fun h => ?_, fun h => ?_, fun h => ?_, rfl⟩ <;>
    simp [insertArticleWithRetry, h]

/-- Witness for C4_slug_retry_once: a second collision is a hard failure
after exactly two attempts. -/
theorem C4_slug_retry_once_witness :
    insertArticleWithRetry sampleStore sampleArticle "a1b2c3"
        (.err { errno := .num 19, code := .undef })
        (.err { errno := .num 19, code := .undef })
      = (.error { errno := .num 19, code := .undef }, 2) :=
  (C4_slug_retry_once sampleStore sampleArticle "a1b2c3"
      { errno := .num 19, code := .undef } { errno := .num 19, code := .undef }
      (.err { errno := .num 19, code := .undef })).2.2.1 (by decide)

/-! ## C8: the author id is stripped from every response -/

/-- Deleting a key removes it from the keys of the object. -/
lemma objDelete_key_not_mem (o : Obj) (k : String) : k ∉ objKeys (objDelete o k) := by
  intro hmem
  rcases List.mem_map.mp hmem with ⟨p, hp, hpk⟩
  have h2 := (List.mem_filter.mp hp).2
  rw [hpk] at h2
  simp at h2

/-- C8: no response author object carries the internal id — the
bySlug-based responses (getOne, put, favorite post and del) and the get
and feed list responses delete it after composing the following flag, and
the post response never picks it. -/
theorem C8_author_id_never_exposed (u : User) (author : Obj) (fol : Bool) :
    "id" ∉ objKeys (bySlugAuthorObj u fol) ∧
    "id" ∉ objKeys (listAuthorObj author fol) ∧
    "id" ∉ objKeys (postAuthorObj u) ∧
    "id" ∈ objKeys (userToObj u) := by
  refine ⟨objDelete_key_not_mem _ _, objDelete_key_not_mem _ _, ?_, by simp [userToObj, objKeys]⟩
  simp [postAuthorObj, lodashPick, userToObj, objSet, objKeys, List.find?]

/-! ## C2: the symmetric-difference short-circuit never fires -/

/-- The store for the C2 failing input: one article by alice with stored
tags a and b. -/
def storeC2 : Store :=
  { articles := [{ id := 1, slug := "s", title := "T", description := "d",
                   body := "b", author := 1, favoritesCount := 0,
                   createdAt := 0, updatedAt := 0 }],
    users := [aliceU],
    tags := [{ id := 5, name := "a" }, { id := 6, name := "b" }],
    articlesTags := [{ id := 7, article := 1, tag := 5 }, { id := 8, article := 1, tag := 6 }],
    favorites := [],
    followers := [] }

/-- The bySlug bundle for the C2 article. -/
def ctxC2 : ArticleCtx :=
  { row := { id := 1, slug := "s", title := "T", description := "d",
             body := "b", author := 1, favoritesCount := 0,
             createdAt := 0, updatedAt := 0 },
    author := aliceU, tagList := ["a", "b"], favorited := false, following := false }

/-- C2 failing input: updating the tag list from [a, b] to the identical
[a, b] still issues the articles_tags delete and re-insert — the guard
_.difference(article.tagList).length || _.difference(fields.tagList).length
passes each list alone, which returns a copy, so the condition cannot
short-circuit on equal non-empty lists; the relations come back with fresh
ids 200 and 201 in place of the stored 7 and 8. -/
theorem C2_same_taglist_still_replaces :
    bySlugCtx storeC2 (some aliceU) "s" = some ctxC2 ∧
    ctxC2.tagList = ["a", "b"] ∧
    (putTagPhase storeC2 ctxC2 { tagList := some ["a", "b"] }
        (fun _ => .err { errno := .num 19, code := .undef })
        (fun i => 100 + i) (fun i => 200 + i)).2 = true ∧
    (putTagPhase storeC2 ctxC2 { tagList := some ["a", "b"] }
        (fun _ => .err { errno := .num 19, code := .undef })
        (fun i => 100 + i) (fun i => 200 + i)).1.1.articlesTags
      = [{ id := 200, article := 1, tag := 5 }, { id := 201, article := 1, tag := 6 }] := by
  decide

/-! ## C10: the update statement writes only the picked columns -/

/-- The tag insert loop never touches the articles table. -/
lemma insertTagsLoop_articles (outcome : Nat → DbResult) :
    ∀ (i : Nat) (s : Store) (ts : List Tag),
      (insertTagsLoop outcome i s ts).1.articles = s.articles := by
  intro i s ts
  induction ts generalizing i s with
  | nil => rfl
  | cons t ts ih =>
    simp only [insertTagsLoop]
    cases outcome i with
    | ok => exact ih _ _
    | err e =>
      by_cases h : isUniqueViolation e = true
      · simpa [h] using ih _ _
      · simp [h]

/-- The tag insert loop never touches the articles_tags table. -/
lemma insertTagsLoop_articlesTags (outcome : Nat → DbResult) :
    ∀ (i : Nat) (s : Store) (ts : List Tag),
      (insertTagsLoop outcome i s ts).1.articlesTags = s.articlesTags := by
  intro i s ts
  induction ts generalizing i s with
  | nil => rfl
  | cons t ts ih =>
    simp only [insertTagsLoop]
    cases outcome i with
    | ok => exact ih _ _
    | err e =>
      by_cases h : isUniqueViolation e = true
      · simpa [h] using ih _ _
      · simp [h]

/-- The tag section of put never touches the articles table. -/
lemma putTagPhase_articles (s : Store) (c : ArticleCtx) (f : UpdateFields)
    (tagOutcome : Nat → DbResult) (freshTagId freshRelId : Nat → Nat) :
    (putTagPhase s c f tagOutcome freshTagId freshRelId).1.1.articles = s.articles := by
  unfold putTagPhase
  cases f.tagList with
  | none => rfl
  | some l =>
    by_cases h0 : (l.length == 0) = true
    · simp [h0, deleteArticleTags]
    · by_cases h1 : ((lodashDifference c.tagList []).length != 0
          || (lodashDifference l []).length != 0) = true
      · simp only [h0, h1, Bool.false_eq_true, if_false, if_true]
        rcases hLoop : insertTagsLoop tagOutcome 0 (deleteArticleTags s c.row.id)
            (l.enum.map (fun p => Tag.mk (freshTagId p.1) p.2)) with ⟨s2, oe, k⟩
        have hs2 : s2.articles = s.articles := by
          have := insertTagsLoop_articles tagOutcome 0 (deleteArticleTags s c.row.id)
            (l.enum.map (fun p => Tag.mk (freshTagId p.1) p.2))
          rw [hLoop] at this
          simpa [deleteArticleTags] using this
        cases oe <;> simp [hLoop, hs2, resolveTagRelations]
      · simp [h0, h1]

/-- The tail of put after the row write leaves the articles table as the
row write left it. -/
lemma putAfterWrite_articles (s : Store) (c : ArticleCtx) (f : UpdateFields)
    (n : Article) (tagOutcome : Nat → DbResult) (freshTagId freshRelId : Nat → Nat) :
    (putAfterWrite s c f n tagOutcome freshTagId freshRelId).1.articles
      = (writeArticleRow s c.row.id n).articles := by
  unfold putAfterWrite
  rcases hP : putTagPhase (writeArticleRow s c.row.id n) c f tagOutcome freshTagId freshRelId
    with ⟨⟨s2, oe⟩, b⟩
  have hs2 : s2.articles = (writeArticleRow s c.row.id n).articles := by
    have := putTagPhase_articles (writeArticleRow s c.row.id n) c f tagOutcome freshTagId freshRelId
    rw [hP] at this
    exact this
  cases oe <;> simpa using hs2

/-- The per-row relation C10 asserts between the articles table before and
after an update request. -/
def updateFrame (targetId : Nat) (a a2 : Article) : Prop :=
  a2.id = a.id ∧ a2.author = a.author ∧ a2.favoritesCount = a.favoritesCount ∧
    a2.createdAt = a.createdAt ∧ (a.id ≠ targetId → a2 = a)

/-- The row write of put satisfies the frame relation on every row. -/
lemma forall2_writeArticleRow (l : List Article) (targetId : Nat) (n : Article) :
    List.Forall₂ (updateFrame targetId) l
      (l.map (fun a => if a.id == targetId then applyArticleUpdate a n else a)) := by
  rw [List.forall₂_map_right_iff]
  rw [List.forall₂_same]
  intro a _
  by_cases h : (a.id == targetId) = true
  · have hid : a.id = targetId := by simpa using h
    refine ⟨?_, ?_, ?_, ?_, ?_⟩ <;> simp [h, applyArticleUpdate]
    intro hne
    exact absurd hid hne
  · simp only [h, Bool.false_eq_true, if_false]
    exact ⟨rfl, rfl, rfl, rfl, fun _ => rfl⟩

/-- The identity store trivially satisfies the frame relation. -/
lemma forall2_updateFrame_refl (l : List Article) (targetId : Nat) :
    List.Forall₂ (updateFrame targetId) l l := by
  rw [List.forall₂_same]
  intro a _
  exact ⟨rfl, rfl, rfl, rfl, fun _ => rfl⟩

/-- C10: whatever fields the caller supplies and however the request ends,
an update request only ever modifies the title, slug, body, description
and updated-at columns of the target article row: id, author reference,
favorites counter and creation timestamp of every row are preserved, and
rows of other articles are untouched. -/
theorem C10_update_modifies_only_picked_columns
    (s : Store) (callerId : Nat) (c : ArticleCtx) (f : UpdateFields)
    (slugOfTitle : String → String) (now : Nat) (suffix : String)
    (r1 r2 : DbResult) (tagOutcome : Nat → DbResult) (freshTagId freshRelId : Nat → Nat) :
    List.Forall₂ (updateFrame c.row.id) s.articles
      (put s callerId c f slugOfTitle now suffix r1 r2 tagOutcome
        freshTagId freshRelId).1.articles := by
  unfold put
  by_cases hb : (c.author.id != callerId) = true
  · simp only [hb, if_true]
    exact forall2_updateFrame_refl _ _
  · simp only [hb, Bool.false_eq_true, if_false]
    cases r1 with
    | ok =>
      rw [putAfterWrite_articles]
      exact forall2_writeArticleRow _ _ _
    | err e =>
      by_cases hu : isUniqueViolation e = true
      · simp only [hu, if_true]
        cases r2 with
        | ok =>
          rw [putAfterWrite_articles]
          exact forall2_writeArticleRow _ _ _
        | err e2 => exact forall2_updateFrame_refl _ _
      · simp only [hu, Bool.false_eq_true, if_false]
        exact forall2_updateFrame_refl _ _

/-! ## C3: favorite and unfavorite are idempotent no-ops -/

/-- find? by slug commutes with a slug-preserving row transformation. -/
lemma map_preserving_find?_slug (l : List Article) (g : Article → Article)
    (hg : ∀ a, (g a).slug = a.slug) (slugArg : String) :
    (l.map g).find? (fun a => a.slug == slugArg)
      = (l.find? (fun a => a.slug == slugArg)).map g := by
  rw [List.find?_map]
  have hp : ((fun a => a.slug == slugArg) ∘ g) = (fun a => a.slug == slugArg) := by
    funext a
    simp [Function.comp, hg]
  rw [hp]

/-- Extraction of the components a bySlug bundle was assembled from. -/
lemma bySlugCtx_components (s : Store) (u : User) (slugArg : String) (c : ArticleCtx)
    (h : bySlugCtx s (some u) slugArg = some c) :
    ∃ a0, s.articles.find? (fun a => a.slug == slugArg) = some a0 ∧ c.row = a0 ∧
      c.favorited = decide ((s.favorites.filter
        (fun f => f.user == u.id && f.article == a0.id)).length > 0) := by
  unfold bySlugCtx at h
  rcases Option.bind_eq_some.mp h with ⟨a0, ha0, hF⟩
  rcases Option.map_eq_some'.mp hF with ⟨au, hau, hmk⟩
  exact ⟨a0, ha0, by rw [← hmk], by rw [← hmk]⟩

/-- After favorite.post inserted the favorites row, a re-run of bySlug for
the same caller and slug reports the article as favorited. -/
lemma bySlugCtx_after_favorite (s : Store) (u : User) (slugArg : String)
    (c : ArticleCtx) (fid : Nat)
    (h : bySlugCtx s (some u) slugArg = some c) (hf : c.favorited = false) :
    ∀ c2, bySlugCtx ((favoritePost s u.id c fid).1) (some u) slugArg = some c2 →
      c2.favorited = true := by
  intro c2 h2
  rcases bySlugCtx_components s u slugArg c h with ⟨a0, ha0, hrow, _⟩
  have hpost : (favoritePost s u.id c fid).1
      = { s with
            favorites := s.favorites ++ [⟨fid, u.id, c.row.id⟩],
            articles := s.articles.map (fun a =>
              if a.id == c.row.id then { a with favoritesCount := a.favoritesCount + 1 }
              else a) } := by
    simp [favoritePost, hf]
  rw [hpost] at h2
  rcases bySlugCtx_components _ u slugArg c2 h2 with ⟨a2, ha2, _, hfav2⟩
  have hfind : (s.articles.map (fun a =>
      if a.id == c.row.id then { a with favoritesCount := a.favoritesCount + 1 }
      else a)).find? (fun a => a.slug == slugArg)
      = some (if a0.id == c.row.id then { a0 with favoritesCount := a0.favoritesCount + 1 }
              else a0) := by
    rw [map_preserving_find?_slug _ _ (fun a => by
      by_cases hh : (a.id == c.row.id) = true <;> simp [hh]) slugArg, ha0]
    rfl
  have ha2eq : a2 = (if a0.id == c.row.id then
      { a0 with favoritesCount := a0.favoritesCount + 1 } else a0) := by
    rw [ha2] at hfind
    exact Option.some_injective _ hfind
  have hid2 : a2.id = c.row.id := by
    rw [ha2eq, hrow]
    by_cases hh : (a0.id == a0.id) = true <;> simp [hh]
  rw [hfav2]
  rw [List.filter_append]
  have hlast : [FavoriteRow.mk fid u.id c.row.id].filter
      (fun f => f.user == u.id && f.article == a2.id)
      = [FavoriteRow.mk fid u.id c.row.id] := by
    simp [hid2]
  rw [hlast]
  simp

/-- After favorite.del removed the favorites rows of the caller for this
article, a re-run of bySlug for the same caller and slug reports the
article as not favorited. -/
lemma bySlugCtx_after_unfavorite (s : Store) (u : User) (slugArg : String)
    (c : ArticleCtx)
    (h : bySlugCtx s (some u) slugArg = some c) (hf : c.favorited = true) :
    ∀ c2, bySlugCtx ((favoriteDel s u.id c).1) (some u) slugArg = some c2 →
      c2.favorited = false := by
  intro c2 h2
  rcases bySlugCtx_components s u slugArg c h with ⟨a0, ha0, hrow, _⟩
  have hdel : (favoriteDel s u.id c).1
      = { s with
            favorites := s.favorites.filter
              (fun f => !(f.user == u.id && f.article == c.row.id)),
            articles := s.articles.map (fun a =>
              if a.id == c.row.id then { a with favoritesCount := a.favoritesCount - 1 }
              else a) } := by
    simp [favoriteDel, hf]
  rw [hdel] at h2
  rcases bySlugCtx_components _ u slugArg c2 h2 with ⟨a2, ha2, _, hfav2⟩
  have hfind : (s.articles.map (fun a =>
      if a.id == c.row.id then { a with favoritesCount := a.favoritesCount - 1 }
      else a)).find? (fun a => a.slug == slugArg)
      = some (if a0.id == c.row.id then { a0 with favoritesCount := a0.favoritesCount - 1 }
              else a0) := by
    rw [map_preserving_find?_slug _ _ (fun a => by
      by_cases hh : (a.id == c.row.id) = true <;> simp [hh]) slugArg, ha0]
    rfl
  have ha2eq : a2 = (if a0.id == c.row.id then
      { a0 with favoritesCount := a0.favoritesCount - 1 } else a0) := by
    rw [ha2] at hfind
    exact Option.some_injective _ hfind
  have hid2 : a2.id = c.row.id := by
    rw [ha2eq, hrow]
    by_cases hh : (a0.id == a0.id) = true <;> simp [hh]
  rw [hfav2]
  have hnil : (s.favorites.filter
        (fun f => !(f.user == u.id && f.article == c.row.id))).filter
      (fun f => f.user == u.id && f.article == a2.id) = [] := by
    rw [List.filter_filter]
    rw [List.filter_eq_nil_iff]
    intro f _
    rw [hid2]
    cases hx : (f.user == u.id && f.article == c.row.id) <;> simp [hx]
  rw [hnil]
  simp

/-- C3: favoriting an already-favorited article and unfavoriting a
not-favorited one return the current article with the store untouched,
and a second identical favorite (or unfavorite) request right after a
first one leaves the store exactly as the first left it. -/
theorem C3_favorite_unfavorite_idempotent (s : Store) (callerId : Nat)
    (c : ArticleCtx) (u : User) (slugArg : String) (fid1 fid2 : Nat) :
    (c.favorited = true → favoritePost s callerId c fid1 = (s, c)) ∧
    (c.favorited = false → favoriteDel s callerId c = (s, c)) ∧
    (favoriteRequest (favoriteRequest s u slugArg fid1).1 u slugArg fid2).1
      = (favoriteRequest s u slugArg fid1).1 ∧
    (unfavoriteRequest (unfavoriteRequest s u slugArg).1 u slugArg).1
      = (unfavoriteRequest s u slugArg).1 := by
  refine ⟨fun h => by simp [favoritePost, h], fun h => by simp [favoriteDel, h], ?_, ?_⟩
  · cases h : bySlugCtx s (some u) slugArg with
    | none => simp [favoriteRequest, h]
    | some c1 =>
      by_cases hf : c1.favorited = true
      · have h1 : favoritePost s u.id c1 fid1 = (s, c1) := by simp [favoritePost, hf]
        have h2 : favoritePost s u.id c1 fid2 = (s, c1) := by simp [favoritePost, hf]
        simp [favoriteRequest, h, h1, h2]
      · have hf0 : c1.favorited = false := by simpa using hf
        have houter : (favoriteRequest s u slugArg fid1).1 = (favoritePost s u.id c1 fid1).1 := by
          simp [favoriteRequest, h]
        rw [houter]
        cases h2 : bySlugCtx (favoritePost s u.id c1 fid1).1 (some u) slugArg with
        | none => simp [favoriteRequest, h2]
        | some c2 =>
          have hfav2 : c2.favorited = true :=
            bySlugCtx_after_favorite s u slugArg c1 fid1 h hf0 c2 h2
          have h3 : favoritePost (favoritePost s u.id c1 fid1).1 u.id c2 fid2
              = ((favoritePost s u.id c1 fid1).1, c2) := by simp [favoritePost, hfav2]
          simp [favoriteRequest, h2, h3]
  · cases h : bySlugCtx s (some u) slugArg with
    | none => simp [unfavoriteRequest, h]
    | some c1 =>
      by_cases hf : c1.favorited = true
      · have houter : (unfavoriteRequest s u slugArg).1 = (favoriteDel s u.id c1).1 := by
          simp [unfavoriteRequest, h]
        rw [houter]
        cases h2 : bySlugCtx (favoriteDel s u.id c1).1 (some u) slugArg with
        | none => simp [unfavoriteRequest, h2]
        | some c2 =>
          have hfav2 : c2.favorited = false :=
            bySlugCtx_after_unfavorite s u slugArg c1 h hf c2 h2
          have h3 : favoriteDel (favoriteDel s u.id c1).1 u.id c2
              = ((favoriteDel s u.id c1).1, c2) := by simp [favoriteDel, hfav2]
          simp [unfavoriteRequest, h2, h3]
      · have hf0 : c1.favorited = false := by simpa using hf
        have h1 : favoriteDel s u.id c1 = (s, c1) := by simp [favoriteDel, hf0]
        have h2 : favoriteDel s u.id c1 = (s, c1) := h1
        simp [unfavoriteRequest, h, h1, h2]

/-- Witness for C3 at the sample store: bob has favorited the sample
article, so a second favorite by bob is a complete no-op. -/
theorem C3_favorite_unfavorite_idempotent_witness :
    favoritePost sampleStore 2
        { sampleCtx with favorited := true } 99
      = (sampleStore, { sampleCtx with favorited := true }) :=
  (C3_favorite_unfavorite_idempotent sampleStore 2
      { sampleCtx with favorited := true } bobU "hello-world" 99 100).1 rfl

/-! ## C5: tag inserts absorb unique violations, propagate the rest -/

/-- When every failing tag insert fails with a recognized unique
violation, the loop finishes without error, issuing exactly one insert
attempt per tag. -/
lemma insertTagsLoop_absorbs (outcome : Nat → DbResult) :
    ∀ (ts : List Tag) (i0 : Nat) (s : Store),
      (∀ j, j < ts.length → ∀ e2, outcome (i0 + j) = .err e2 →
        isUniqueViolation e2 = true) →
      (insertTagsLoop outcome i0 s ts).2.1 = none ∧
      (insertTagsLoop outcome i0 s ts).2.2 = i0 + ts.length := by
  intro ts
  induction ts with
  | nil => exact fun i0 s _ => ⟨rfl, rfl⟩
  | cons t1 ts ih =>
    intro i0 s habs
    have hshift : ∀ j, j < ts.length → ∀ e2, outcome (i0 + 1 + j) = .err e2 →
        isUniqueViolation e2 = true := by
      intro j hj e2 he2
      refine habs (j + 1) (by simpa using Nat.succ_lt_succ hj) e2 ?_
      have harith : i0 + (j + 1) = i0 + 1 + j := by omega
      rw [harith]
      exact he2
    simp only [insertTagsLoop]
    cases ho : outcome i0 with
    | ok =>
      have hres := ih (i0 + 1) { s with tags := s.tags ++ [t1] } hshift
      exact ⟨hres.1, by rw [hres.2, List.length_cons]; omega⟩
    | err e2 =>
      have hu : isUniqueViolation e2 = true := habs 0 (by simp) e2 ho
      simp only [hu, if_true]
      have hres := ih (i0 + 1) s hshift
      exact ⟨hres.1, by rw [hres.2, List.length_cons]; omega⟩

/-- The requested names re-queried by the tag phase are exactly the
requested tag list. -/
lemma newTags_names (tagList : List String) (freshTagId : Nat → Nat) :
    (tagList.enum.map (fun p => Tag.mk (freshTagId p.1) p.2)).map (fun t => t.name)
      = tagList := by
  rw [List.map_map]
  exact List.enum_map_snd tagList

/-- The tag phase of post leaves only relations that reference a tag row
whose name was requested, provided no pre-existing relation references the
new article. -/
lemma postTagPhase_relations (s : Store) (articleId : Nat) (tagList : List String)
    (outcome : Nat → DbResult) (freshTagId freshRelId : Nat → Nat)
    (hfresh : ∀ r ∈ s.articlesTags, r.article ≠ articleId)
    (hsucc : (postTagPhase s articleId tagList outcome freshTagId freshRelId).2 = none) :
    ∀ r ∈ (postTagPhase s articleId tagList outcome freshTagId freshRelId).1.articlesTags,
      r.article = articleId →
      ∃ t2 ∈ (postTagPhase s articleId tagList outcome freshTagId freshRelId).1.tags,
        t2.id = r.tag ∧ t2.name ∈ tagList := by
  unfold postTagPhase at hsucc ⊢
  by_cases hlen : tagList.length > 0
  · rw [if_pos hlen] at hsucc ⊢
    rcases hLoop : insertTagsLoop outcome 0 s
        (tagList.enum.map (fun p => Tag.mk (freshTagId p.1) p.2)) with ⟨s1, oe, k⟩
    rw [hLoop] at hsucc ⊢
    cases oe with
    | some e => simp at hsucc
    | none =>
      simp only [resolveTagRelations, newTags_names]
      intro r hr hart
      have hs1tags : s1.articlesTags = s.articlesTags := by
        have hpres := insertTagsLoop_articlesTags outcome 0 s
          (tagList.enum.map (fun p => Tag.mk (freshTagId p.1) p.2))
        rw [hLoop] at hpres
        exact hpres
      simp only [List.mem_append] at hr
      rcases hr with hold | hnew
      · rw [hs1tags] at hold
        exact absurd hart (hfresh r hold)
      · rcases List.mem_map.mp hnew with ⟨p, hp, hpr⟩
        have ht2found := List.snd_mem_of_mem_enum hp
        have hparts := List.mem_filter.mp ht2found
        refine ⟨p.2, hparts.1, ?_, ?_⟩
        · rw [← hpr]
        · simpa using hparts.2
  · rw [if_neg hlen] at hsucc ⊢
    intro r hr hart
    exact absurd hart (hfresh r hr)

/-- C5: a per-tag insert failing with a recognized unique violation is
silently absorbed, each tag is attempted exactly once, any other insert
error is propagated at once, and after resolution every articles_tags row
of the new article references a tag row whose name was requested. -/
theorem C5_tag_insert_error_policy (s : Store) (articleId : Nat)
    (tagList : List String) (outcome : Nat → DbResult) (i0 : Nat)
    (t : Tag) (ts : List Tag) (e : DbError) (freshTagId freshRelId : Nat → Nat) :
    ((∀ j, j < ts.length → ∀ e2, outcome (i0 + j) = .err e2 →
        isUniqueViolation e2 = true) →
      (insertTagsLoop outcome i0 s ts).2.1 = none ∧
      (insertTagsLoop outcome i0 s ts).2.2 = i0 + ts.length) ∧
    (outcome i0 = .err e → isUniqueViolation e = false →
      insertTagsLoop outcome i0 s (t :: ts) = (s, some e, i0 + 1)) ∧
    ((∀ r ∈ s.articlesTags, r.article ≠ articleId) →
      (postTagPhase s articleId tagList outcome freshTagId freshRelId).2 = none →
      ∀ r ∈ (postTagPhase s articleId tagList outcome freshTagId freshRelId).1.articlesTags,
        r.article = articleId →
        ∃ t2 ∈ (postTagPhase s articleId tagList outcome freshTagId freshRelId).1.tags,
          t2.id = r.tag ∧ t2.name ∈ tagList) := by
  refine ⟨insertTagsLoop_absorbs outcome ts i0 s, ?_, postTagPhase_relations _ _ _ _ _ _⟩
  intro ho hnu
  simp [insertTagsLoop, ho, hnu]

/-- Witness for C5: one colliding tag insert, absorbed, one attempt. -/
theorem C5_tag_insert_error_policy_witness :
    (insertTagsLoop (fun _ => .err { errno := .num 19, code := .undef }) 0 sampleStore
        [{ id := 50, name := "x" }]).2.1 = none ∧
    (insertTagsLoop (fun _ => .err { errno := .num 19, code := .undef }) 0 sampleStore
        [{ id := 50, name := "x" }]).2.2 = 0 + 1 := by
  refine (C5_tag_insert_error_policy sampleStore 99 ["x"]
      (fun _ => .err { errno := .num 19, code := .undef }) 0
      { id := 0, name := "z" } [{ id := 50, name := "x" }]
      { errno := .undef, code := .undef } (fun i => i) (fun i => i)).1 ?_
  intro j hj e2 he2
  have he : e2 = { errno := .num 19, code := .undef } := by
    simpa using he2.symm
  rw [he]
  decide

/-! ## C6 and C7: viewer isolation and count consistency -/

/-- The article content of a single-article response: everything except
the two viewer-relative flags. -/
def viewContent (v : ArticleView) :
    Nat × String × String × String × String × Nat × Nat × Nat ×
      List String × String × String × String :=
  (v.id, v.slug, v.title, v.description, v.body, v.favoritesCount,
   v.createdAt, v.updatedAt, v.tagList, v.author.username, v.author.bio,
   v.author.image)

/-- The article content of a list-response entry: everything except the
two viewer-relative flags. -/
def matContent (m : MatArticle) :
    Article × Option String × Option String × Option String × List String :=
  (m.article, m.authorUsername, m.authorBio, m.authorImage, m.tagList)

/-- The viewer-independent columns of a joined row. -/
def rowContent (r : JoinedRow) :
    Article × Option User × Option (Nat × String) :=
  (r.article, r.author, r.tag)

/-- Two bySlug bundles for the same slug agree on the article row, the
author row and the tag list, whatever the viewers. -/
lemma bySlugCtx_eq_content (s : Store) (v1 v2 : Option User) (slugArg : String)
    (c1 c2 : ArticleCtx) (h1 : bySlugCtx s v1 slugArg = some c1)
    (h2 : bySlugCtx s v2 slugArg = some c2) :
    c1.row = c2.row ∧ c1.author = c2.author ∧ c1.tagList = c2.tagList := by
  unfold bySlugCtx at h1 h2
  rcases Option.bind_eq_some.mp h1 with ⟨a1, ha1, hF1⟩
  rcases Option.map_eq_some'.mp hF1 with ⟨au1, hau1, hmk1⟩
  rcases Option.bind_eq_some.mp h2 with ⟨a2, ha2, hF2⟩
  rcases Option.map_eq_some'.mp hF2 with ⟨au2, hau2, hmk2⟩
  have haa : a1 = a2 := by
    rw [ha1] at ha2
    exact Option.some_injective _ ha2
  subst haa
  have hauau : au1 = au2 := by
    rw [hau1] at hau2
    exact Option.some_injective _ hau2
  subst hauau
  exact ⟨by rw [← hmk1, ← hmk2], by rw [← hmk1, ← hmk2], by rw [← hmk1, ← hmk2]⟩

/-- An anonymous bySlug bundle carries both flags false. -/
lemma bySlugCtx_anon_flags (s : Store) (slugArg : String) (c : ArticleCtx)
    (h : bySlugCtx s none slugArg = some c) :
    c.favorited = false ∧ c.following = false := by
  unfold bySlugCtx at h
  rcases Option.bind_eq_some.mp h with ⟨a0, ha0, hF⟩
  rcases Option.map_eq_some'.mp hF with ⟨au, hau, hmk⟩
  exact ⟨by rw [← hmk], by rw [← hmk]⟩

/-- For an anonymous viewer the favorites and followers joins match
nothing: one all-null row. -/
lemma viewerMarks_none (s : Store) (a : Article) :
    viewerMarks s none a = [(none, none)] := by
  have h1 : s.favorites.filter
      (fun f => f.article == a.id && some f.user == (none : Option Nat)) = [] := by
    rw [List.filter_eq_nil_iff]
    intro f _
    simp
  have h2 : s.followers.filter
      (fun fo => fo.user == a.author && some fo.follower == (none : Option Nat)) = [] := by
    rw [List.filter_eq_nil_iff]
    intro fo _
    simp
  simp [viewerMarks, h1, h2, leftJoinRows]

/-- A filter whose predicate pins down a key takes at most one element
from a list whose keys are distinct. -/
lemma filter_length_le_one {α κ : Type} [DecidableEq κ] (key : α → κ) (k : κ)
    (p : α → Bool) (hk : ∀ x, p x = true → key x = k) :
    ∀ l : List α, (l.map key).Nodup → (l.filter p).length ≤ 1 := by
  intro l
  induction l with
  | nil => intro _; simp
  | cons hd tl ih =>
    intro hnd
    rw [List.map_cons, List.nodup_cons] at hnd
    by_cases hph : p hd = true
    · rw [List.filter_cons_of_pos hph]
      have htl : tl.filter p = [] := by
        rw [List.filter_eq_nil_iff]
        intro x hx hpx
        refine hnd.1 ?_
        rw [hk hd hph, ← hk x hpx]
        exact List.mem_map_of_mem key hx
      simp [htl]
    · rw [List.filter_cons_of_neg (by simpa using hph)]
      exact ih hnd.2

/-- A left join against at most one matching row produces exactly one row. -/
lemma leftJoinRows_of_length_le_one {α : Type} (ms : List α) (h : ms.length ≤ 1) :
    ∃ o, leftJoinRows ms = [o] := by
  cases ms with
  | nil => exact ⟨none, rfl⟩
  | cons x xs =>
    cases xs with
    | nil => exact ⟨some x, rfl⟩
    | cons y ys => simp at h

/-- When favorite and follow edges are unique per (user, article) and
(user, follower) pair, the viewer joins contribute exactly one row. -/
lemma viewerMarks_singleton (s : Store) (vid : Nat) (a : Article)
    (hfav : (s.favorites.map (fun f => (f.user, f.article))).Nodup)
    (hfol : (s.followers.map (fun fo => (fo.user, fo.follower))).Nodup) :
    ∃ m, viewerMarks s (some vid) a = [m] := by
  obtain ⟨o1, ho1⟩ := leftJoinRows_of_length_le_one
    (s.favorites.filter (fun f => f.article == a.id && some f.user == some vid))
    (filter_length_le_one (fun f => (f.user, f.article)) (vid, a.id) _
      (fun x hx => by
        simp only [Bool.and_eq_true, beq_iff_eq, Option.some.injEq] at hx
        show (x.user, x.article) = (vid, a.id)
        rw [hx.1, hx.2])
      s.favorites hfav)
  obtain ⟨o2, ho2⟩ := leftJoinRows_of_length_le_one
    (s.followers.filter (fun fo => fo.user == a.author && some fo.follower == some vid))
    (filter_length_le_one (fun fo => (fo.user, fo.follower)) (a.author, vid) _
      (fun x hx => by
        simp only [Bool.and_eq_true, beq_iff_eq, Option.some.injEq] at hx
        show (x.user, x.follower) = (a.author, vid)
        rw [hx.1, hx.2])
      s.followers hfol)
  refine ⟨(o1.map (fun f => f.id), o2.map (fun fo => fo.id)), ?_⟩
  unfold viewerMarks
  rw [ho1, ho2]
  rfl

/-- A flat map of singletons is a map. -/
lemma flatMap_singleton_eq_map {α β : Type} (l : List α) (f : α → β) :
    l.flatMap (fun x => [f x]) = l.map f := by
  induction l with
  | nil => rfl
  | cons a as ih => simp only [List.flatMap_cons, List.map_cons, ih, List.singleton_append]

/-- With a single viewer-join row, the joined rows of one article project
to the content combinations, independently of the viewer. -/
lemma joinedRowsFor_map_rowContent (s : Store) (vid : Option Nat) (a : Article)
    (hm : ∃ m, viewerMarks s vid a = [m]) :
    (joinedRowsFor s vid a).map rowContent
      = (contentCombos s a).map (fun c => (a, c.1, c.2)) := by
  rcases hm with ⟨m, hm⟩
  unfold joinedRowsFor
  rw [hm, List.map_flatMap]
  exact flatMap_singleton_eq_map _ _

/-- Filtering through a predicate that factors through a projection is
compatible with projected equality of lists. -/
lemma filter_map_congr {α β : Type} (f : α → β) (q : β → Bool) :
    ∀ (l1 l2 : List α), l1.map f = l2.map f →
      (l1.filter (fun a => q (f a))).map f = (l2.filter (fun a => q (f a))).map f := by
  intro l1
  induction l1 with
  | nil =>
    intro l2 h
    cases l2 with
    | nil => rfl
    | cons b bs => simp at h
  | cons a as ih =>
    intro l2 h
    cases l2 with
    | nil => simp at h
    | cons b bs =>
      simp only [List.map_cons, List.cons.injEq] at h
      obtain ⟨hab, hrest⟩ := h
      by_cases hq : q (f a) = true
      · have hqb : q (f b) = true := by rw [← hab]; exact hq
        simp only [List.filter_cons]
        rw [if_pos hq, if_pos hqb]
        simp only [List.map_cons]
        rw [hab, ih bs hrest]
      · have hqb : ¬ q (f b) = true := fun hc => hq (by rw [hab]; exact hc)
        simp only [List.filter_cons]
        rw [if_neg hq, if_neg hqb]
        exact ih bs hrest

/-- The materialized content of a row list depends only on the projected
content of its rows: the viewer-relative markers influence only the two
flags. -/
lemma materializeRows_content_congr (rows1 rows2 : List JoinedRow)
    (h : rows1.map rowContent = rows2.map rowContent) :
    (materializeRows rows1).map matContent = (materializeRows rows2).map matContent := by
  have hids : rows1.map (fun r => r.article.id) = rows2.map (fun r => r.article.id) := by
    have h1 : rows1.map (fun r => r.article.id)
        = (rows1.map rowContent).map (fun x => x.1.id) := by
      rw [List.map_map]; rfl
    have h2 : rows2.map (fun r => r.article.id)
        = (rows2.map rowContent).map (fun x => x.1.id) := by
      rw [List.map_map]; rfl
    rw [h1, h2, h]
  unfold materializeRows
  rw [hids, List.map_filterMap, List.map_filterMap]
  apply List.filterMap_congr
  intro i _
  have hg : (groupRows rows1 i).map rowContent = (groupRows rows2 i).map rowContent := by
    unfold groupRows
    exact filter_map_congr rowContent (fun x => x.1.id == i) rows1 rows2 h
  cases hg1 : groupRows rows1 i with
  | nil =>
    cases hg2 : groupRows rows2 i with
    | nil => rfl
    | cons r2 rs2 =>
      rw [hg1, hg2] at hg
      simp at hg
  | cons r1 rs1 =>
    cases hg2 : groupRows rows2 i with
    | nil =>
      rw [hg1, hg2] at hg
      simp at hg
    | cons r2 rs2 =>
      rw [hg1, hg2] at hg
      simp only [List.map_cons, List.cons.injEq] at hg
      obtain ⟨hr, hrs⟩ := hg
      have hart : r1.article = r2.article := congrArg (fun x => x.1) hr
      have hau : r1.author = r2.author := congrArg (fun x => x.2.1) hr
      have htags : (r1 :: rs1).filterMap (fun q => q.tag)
          = (r2 :: rs2).filterMap (fun q => q.tag) := by
        have e1 : (r1 :: rs1).filterMap (fun q => q.tag)
            = ((r1 :: rs1).map rowContent).filterMap (fun x => x.2.2) := by
          rw [List.filterMap_map]; rfl
        have e2 : (r2 :: rs2).filterMap (fun q => q.tag)
            = ((r2 :: rs2).map rowContent).filterMap (fun x => x.2.2) := by
          rw [List.filterMap_map]; rfl
        rw [e1, e2]
        have hmaps : (r1 :: rs1).map rowContent = (r2 :: rs2).map rowContent := by
          simp only [List.map_cons]
          rw [hr, hrs]
        rw [hmaps]
      simp only [Option.map_some']
      congr 1
      unfold matContent
      simp only []
      rw [hart, hau, htags]

/-- The projected content of the full row query is the viewer-independent
product of sorted filtered articles and their content combinations,
whenever each viewer join contributes exactly one row. -/
lemma rowQueryAll_map_rowContent (s : Store) (aF fF tF : List String)
    (vid : Option Nat) (hm : ∀ a, ∃ m, viewerMarks s vid a = [m]) :
    (rowQueryAll s vid aF fF tF).map rowContent
      = (sortByCreatedAtDesc (s.articles.filter (articleMatchesFilters s aF fF tF))).flatMap
          (fun a => (contentCombos s a).map (fun c => (a, c.1, c.2))) := by
  unfold rowQueryAll
  rw [List.map_flatMap]
  have hfun : (fun a => (joinedRowsFor s vid a).map rowContent)
      = (fun a => (contentCombos s a).map (fun c => (a, c.1, c.2))) :=
    funext (fun a => joinedRowsFor_map_rowContent s vid a (hm a))
  rw [hfun]

/-- Every row the anonymous row query produces carries null viewer
markers. -/
lemma rowQueryAll_none_flags (s : Store) (aF fF tF : List String) :
    ∀ r ∈ rowQueryAll s none aF fF tF,
      r.articleFavorited = none ∧ r.authorFollowing = none := by
  intro r hr
  unfold rowQueryAll at hr
  rcases List.mem_flatMap.mp hr with ⟨a, _, hra⟩
  unfold joinedRowsFor at hra
  rcases List.mem_flatMap.mp hra with ⟨c, _, hrc⟩
  rw [viewerMarks_none] at hrc
  rcases List.mem_map.mp hrc with ⟨m, hmem, hrm⟩
  simp only [List.mem_singleton] at hmem
  subst hmem
  rw [← hrm]
  exact ⟨rfl, rfl⟩

/-- Rows with null viewer markers materialize with both flags false. -/
lemma materializeRows_flags_false (rows : List JoinedRow)
    (hmarks : ∀ r ∈ rows, r.articleFavorited = none ∧ r.authorFollowing = none) :
    ∀ m ∈ materializeRows rows, m.favorited = false ∧ m.following = false := by
  intro m hm
  unfold materializeRows at hm
  rcases List.mem_filterMap.mp hm with ⟨i, _, hFi⟩
  cases hg : groupRows rows i with
  | nil => rw [hg] at hFi; simp at hFi
  | cons r rs =>
    rw [hg] at hFi
    simp only [Option.some.injEq] at hFi
    subst hFi
    have hsub : ∀ q ∈ r :: rs, q.articleFavorited = none ∧ q.authorFollowing = none := by
      intro q hq
      apply hmarks
      have hq2 : q ∈ groupRows rows i := by rw [hg]; exact hq
      exact List.mem_of_mem_filter hq2
    constructor
    · show (r :: rs).any (fun q => q.articleFavorited.isSome) = false
      rw [List.any_eq_false]
      intro q hq
      rw [(hsub q hq).1]
      simp
    · show (r :: rs).any (fun q => q.authorFollowing.isSome) = false
      rw [List.any_eq_false]
      intro q hq
      rw [(hsub q hq).2]
      simp

/-- Every row of a page is a row of the unpaginated query. -/
lemma rowQuery_subset (s : Store) (vid : Option Nat) (aF fF tF : List String)
    (limit offset : Nat) :
    ∀ r ∈ rowQuery s vid aF fF tF limit offset, r ∈ rowQueryAll s vid aF fF tF := by
  intro r hr
  unfold rowQuery at hr
  exact List.drop_subset _ _ (List.take_subset _ _ hr)

/-- C6: the two viewer flags are computed solely from the requesting
viewer relationship rows — an anonymous single-article read and every
anonymous list entry report both flags false, two viewers reading the
same article by slug receive identical content apart from the flags, and
two viewers of the same list request receive entrywise identical content
(given the favorite and follow edges are unique per pair, as the
mutation endpoints maintain). -/
theorem C6_viewer_isolation :
    (∀ (s : Store) (slugArg : String) (v : ArticleView),
        bySlugView s none slugArg = some v →
        v.favorited = false ∧ v.author.following = false) ∧
    (∀ (s : Store) (slugArg : String) (u1 u2 : Option User) (v1 v2 : ArticleView),
        bySlugView s u1 slugArg = some v1 → bySlugView s u2 slugArg = some v2 →
        viewContent v1 = viewContent v2) ∧
    (∀ (s : Store) (aF fF tF : List String) (limit offset : Nat)
        (cr : Nat → CountRes) (m : MatArticle),
        m ∈ (getArticles s none aF fF tF limit offset cr).1 →
        m.favorited = false ∧ m.following = false) ∧
    (∀ (s : Store) (aF fF tF : List String) (limit offset : Nat)
        (cr : Nat → CountRes) (vid1 vid2 : Option Nat),
        (s.favorites.map (fun f => (f.user, f.article))).Nodup →
        (s.followers.map (fun fo => (fo.user, fo.follower))).Nodup →
        ((getArticles s vid1 aF fF tF limit offset cr).1).map matContent
          = ((getArticles s vid2 aF fF tF limit offset cr).1).map matContent) := by
  refine ⟨?_, ?_, ?_, ?_⟩
  · intro s slugArg v h
    rcases Option.map_eq_some'.mp h with ⟨c, hc, hv⟩
    obtain ⟨hfav, hfol⟩ := bySlugCtx_anon_flags s slugArg c hc
    rw [← hv]
    exact ⟨hfav, hfol⟩
  · intro s slugArg u1 u2 v1 v2 h1 h2
    rcases Option.map_eq_some'.mp h1 with ⟨c1, hc1, hv1⟩
    rcases Option.map_eq_some'.mp h2 with ⟨c2, hc2, hv2⟩
    obtain ⟨hrow, hau, htl⟩ := bySlugCtx_eq_content s u1 u2 slugArg c1 c2 hc1 hc2
    rw [← hv1, ← hv2]
    unfold viewContent viewOfCtx
    simp only []
    rw [hrow, hau, htl]
  · intro s aF fF tF limit offset cr m hm
    refine materializeRows_flags_false (rowQuery s none aF fF tF limit offset) ?_ m hm
    intro r hr
    exact rowQueryAll_none_flags s aF fF tF r
      (rowQuery_subset s none aF fF tF limit offset r hr)
  · intro s aF fF tF limit offset cr vid1 vid2 hfav hfol
    have hm1 : ∀ a, ∃ m, viewerMarks s vid1 a = [m] := by
      intro a
      cases vid1 with
      | none => exact ⟨(none, none), viewerMarks_none s a⟩
      | some v => exact viewerMarks_singleton s v a hfav hfol
    have hm2 : ∀ a, ∃ m, viewerMarks s vid2 a = [m] := by
      intro a
      cases vid2 with
      | none => exact ⟨(none, none), viewerMarks_none s a⟩
      | some v => exact viewerMarks_singleton s v a hfav hfol
    have hall : (rowQueryAll s vid1 aF fF tF).map rowContent
        = (rowQueryAll s vid2 aF fF tF).map rowContent := by
      rw [rowQueryAll_map_rowContent s aF fF tF vid1 hm1,
        rowQueryAll_map_rowContent s aF fF tF vid2 hm2]
    have hpage : (rowQuery s vid1 aF fF tF limit offset).map rowContent
        = (rowQuery s vid2 aF fF tF limit offset).map rowContent := by
      unfold rowQuery
      rw [List.map_take, List.map_take, List.map_drop, List.map_drop, hall]
    exact materializeRows_content_congr _ _ hpage

/-- Witness for C6: the anonymous read of the sample article reports both
flags false. -/
theorem C6_viewer_isolation_witness :
    (viewOfCtx sampleCtx).favorited = false ∧
    (viewOfCtx sampleCtx).author.following = false :=
  C6_viewer_isolation.1 sampleStore "hello-world" (viewOfCtx sampleCtx) (by decide)

/-! ## C7 machinery: distinct-article count of the unbounded row query -/

/-- A filterMap hitting some on every element preserves the length. -/
lemma length_filterMap_of_forall_isSome {α β : Type} (l : List α) (f : α → Option β)
    (h : ∀ a ∈ l, (f a).isSome = true) : (l.filterMap f).length = l.length := by
  induction l with
  | nil => rfl
  | cons a as ih =>
    rw [List.filterMap_cons]
    cases hfa : f a with
    | none =>
      have hsome := h a (by simp)
      rw [hfa] at hsome
      simp at hsome
    | some b =>
      simp only [List.length_cons]
      rw [ih (fun x hx => h x (by simp [hx]))]

/-- The materializer emits exactly one record per distinct article id. -/
lemma materializeRows_length (rows : List JoinedRow) :
    (materializeRows rows).length
      = ((rows.map (fun r => r.article.id)).dedup).length := by
  unfold materializeRows
  rw [length_filterMap_of_forall_isSome]
  intro i hi
  have hmem : i ∈ rows.map (fun r => r.article.id) := List.mem_dedup.mp hi
  rcases List.mem_map.mp hmem with ⟨r, hr, hri⟩
  have hrg : r ∈ groupRows rows i := by
    unfold groupRows
    rw [List.mem_filter]
    exact ⟨hr, by simp [hri]⟩
  cases hg : groupRows rows i with
  | nil => rw [hg] at hrg; simp at hrg
  | cons r0 rs => rfl

/-- dedup respects consing one element onto dedup-equal lists. -/
lemma dedup_cons_congr {κ : Type} [DecidableEq κ] (x : κ) (l1 l2 : List κ)
    (h : l1.dedup = l2.dedup) : (x :: l1).dedup = (x :: l2).dedup := by
  by_cases hx : x ∈ l1
  · have hx2 : x ∈ l2 := by
      have hm : x ∈ l2.dedup := by rw [← h]; exact List.mem_dedup.mpr hx
      exact List.mem_dedup.mp hm
    rw [List.dedup_cons_of_mem hx, List.dedup_cons_of_mem hx2, h]
  · have hx2 : x ∉ l2 := by
      intro hc
      exact hx (List.mem_dedup.mp (h ▸ List.mem_dedup.mpr hc))
    rw [List.dedup_cons_of_not_mem hx, List.dedup_cons_of_not_mem hx2, h]

/-- A non-empty constant block deduplicates like a single element. -/
lemma dedup_replicate_append {κ : Type} [DecidableEq κ] :
    ∀ (n : Nat), n ≠ 0 → ∀ (x : κ) (ys : List κ),
      (List.replicate n x ++ ys).dedup = (x :: ys).dedup := by
  intro n
  induction n with
  | zero => intro h; exact absurd rfl h
  | succ m ih =>
    intro _ x ys
    cases m with
    | zero => rfl
    | succ k =>
      rw [List.replicate_succ, List.cons_append,
        List.dedup_cons_of_mem (List.mem_append_left _
          (List.mem_replicate.mpr ⟨Nat.succ_ne_zero k, rfl⟩))]
      exact ih (Nat.succ_ne_zero k) x ys

/-- Deduplicated keys of a flat map with non-empty per-element blocks of
constant key equal the deduplicated per-element keys. -/
lemma dedup_map_flatMap {α β κ : Type} [DecidableEq κ] (g : α → List β)
    (key : β → κ) (f : α → κ) :
    ∀ (l : List α), (∀ a ∈ l, g a ≠ []) → (∀ a ∈ l, ∀ b ∈ g a, key b = f a) →
      ((l.flatMap g).map key).dedup = (l.map f).dedup := by
  intro l
  induction l with
  | nil => intro _ _; rfl
  | cons a as ih =>
    intro hne hkey
    rw [List.flatMap_cons, List.map_append, List.map_cons]
    have hrep : (g a).map key = List.replicate ((g a).length) (f a) := by
      rw [List.eq_replicate_iff]
      constructor
      · rw [List.length_map]
      · intro b hb
        rcases List.mem_map.mp hb with ⟨x, hx, hxb⟩
        rw [← hxb]
        exact hkey a (by simp) x hx
    rw [hrep]
    have hn : (g a).length ≠ 0 := by
      intro hc
      exact hne a (by simp) (List.length_eq_zero.mp hc)
    rw [dedup_replicate_append _ hn]
    exact dedup_cons_congr _ _ _
      (ih (fun x hx => hne x (by simp [hx])) (fun x hx => hkey x (by simp [hx])))

/-- A left join always produces at least one row. -/
lemma leftJoinRows_ne_nil {α : Type} : ∀ ms : List α, leftJoinRows ms ≠ [] := by
  intro ms
  cases ms with
  | nil => simp [leftJoinRows]
  | cons x xs => simp [leftJoinRows]

/-- A flat map of non-empty blocks over a non-empty list is non-empty. -/
lemma flatMap_ne_nil {α β : Type} (l : List α) (g : α → List β) (hl : l ≠ [])
    (hg : ∀ a ∈ l, g a ≠ []) : l.flatMap g ≠ [] := by
  rcases List.exists_mem_of_ne_nil l hl with ⟨a, ha⟩
  rcases List.exists_mem_of_ne_nil (g a) (hg a ha) with ⟨b, hb⟩
  exact List.ne_nil_of_mem (List.mem_flatMap.mpr ⟨a, ha, hb⟩)

/-- The tag join never suppresses the article row. -/
lemma tagJoinRows_ne_nil (s : Store) (a : Article) : tagJoinRows s a ≠ [] := by
  unfold tagJoinRows
  apply flatMap_ne_nil _ _ (leftJoinRows_ne_nil _)
  intro relOpt _
  cases relOpt with
  | none => simp
  | some rel =>
    intro hc
    exact leftJoinRows_ne_nil _ (List.map_eq_nil_iff.mp hc)

/-- The users and tag joins never suppress the article row. -/
lemma contentCombos_ne_nil (s : Store) (a : Article) : contentCombos s a ≠ [] := by
  unfold contentCombos
  apply flatMap_ne_nil _ _ (leftJoinRows_ne_nil _)
  intro au _
  intro hc
  exact tagJoinRows_ne_nil s a (List.map_eq_nil_iff.mp hc)

/-- The viewer joins never suppress the article row. -/
lemma viewerMarks_ne_nil (s : Store) (vid : Option Nat) (a : Article) :
    viewerMarks s vid a ≠ [] := by
  unfold viewerMarks
  apply flatMap_ne_nil _ _ (leftJoinRows_ne_nil _)
  intro favOpt _
  intro hc
  exact leftJoinRows_ne_nil _ (List.map_eq_nil_iff.mp hc)

/-- Every article contributes at least one joined row: the left joins are
pre-filtered inside their join conditions, never post-filtered. -/
lemma joinedRowsFor_ne_nil (s : Store) (vid : Option Nat) (a : Article) :
    joinedRowsFor s vid a ≠ [] := by
  unfold joinedRowsFor
  apply flatMap_ne_nil _ _ (contentCombos_ne_nil s a)
  intro c _
  intro hc
  exact viewerMarks_ne_nil s vid a (List.map_eq_nil_iff.mp hc)

/-- Every joined row of an article block carries that article. -/
lemma mem_joinedRowsFor_article (s : Store) (vid : Option Nat) (a : Article) :
    ∀ r ∈ joinedRowsFor s vid a, r.article = a := by
  intro r hr
  unfold joinedRowsFor at hr
  rcases List.mem_flatMap.mp hr with ⟨c, _, hrc⟩
  rcases List.mem_map.mp hrc with ⟨m, _, hrm⟩
  rw [← hrm]

/-- The distinct article ids of the full row query are the ids of the
sorted filtered articles. -/
lemma rowQueryAll_ids_dedup (s : Store) (vid : Option Nat) (aF fF tF : List String) :
    ((rowQueryAll s vid aF fF tF).map (fun r => r.article.id)).dedup
      = ((sortByCreatedAtDesc
          (s.articles.filter (articleMatchesFilters s aF fF tF))).map
            (fun a => a.id)).dedup := by
  unfold rowQueryAll
  exact dedup_map_flatMap (joinedRowsFor s vid) (fun r => r.article.id) (fun a => a.id) _
    (fun a _ => joinedRowsFor_ne_nil s vid a)
    (fun a _ r hr => by
      show r.article.id = a.id
      rw [mem_joinedRowsFor_article s vid a r hr])

/-- With distinct article ids in the store, the number of distinct
articles in the unbounded row query equals the count query. -/
lemma distinct_eq_countQuery (s : Store) (vid : Option Nat) (aF fF tF : List String)
    (hids : (s.articles.map (fun a => a.id)).Nodup) :
    ((rowQueryAll s vid aF fF tF).map (fun r => r.article.id)).dedup.length
      = countQuery s aF fF tF := by
  rw [rowQueryAll_ids_dedup]
  have hperm : List.Perm
      (sortByCreatedAtDesc (s.articles.filter (articleMatchesFilters s aF fF tF)))
      (s.articles.filter (articleMatchesFilters s aF fF tF)) :=
    List.perm_insertionSort _ _
  rw [((hperm.map (fun a => a.id)).dedup).length_eq]
  have hnd : ((s.articles.filter (articleMatchesFilters s aF fF tF)).map
      (fun a => a.id)).Nodup :=
    hids.sublist ((List.filter_sublist _).map _)
  rw [hnd.dedup, List.length_map]
  rfl

/-- The sqlite-family count result coerces to the count. -/
lemma extract_sqlite (n : Nat) :
    extractArticlesCount (sqliteCountRes n) = some (n : Int) := by
  simp [extractArticlesCount, sqliteCountRes, jsOr, truthy, jsNumber]

/-- The string-count result coerces to the count it denotes. -/
lemma extract_pg (countStr : String) (n : Nat) (hne : countStr ≠ "")
    (hparse : parseDec countStr = some n) :
    extractArticlesCount (pgCountRes countStr) = some (n : Int) := by
  have ht : truthy (.str countStr) = true := by simp [truthy, hne]
  simp [extractArticlesCount, pgCountRes, jsOr, ht, jsNumber, hne, hparse]

/-- C7: for any filter combination, the coerced articlesCount equals the
number of distinct articles satisfying the filters, which is the number
of records the row query materializes when limit is the full row count
and offset is zero — for the numeric count representation and for the
decimal-string representation alike. -/
theorem C7_count_consistency (s : Store) (vid : Option Nat)
    (aF fF tF : List String) (countStr : String) (limit offset : Nat)
    (hids : (s.articles.map (fun a => a.id)).Nodup)
    (hne : countStr ≠ "")
    (hden : parseDec countStr = some (countQuery s aF fF tF)) :
    (getArticles s vid aF fF tF (rowQueryAll s vid aF fF tF).length 0
        sqliteCountRes).1.length = countQuery s aF fF tF ∧
    (getArticles s vid aF fF tF limit offset
        sqliteCountRes).2 = some ((countQuery s aF fF tF : Nat) : Int) ∧
    (getArticles s vid aF fF tF limit offset
        (fun _ => pgCountRes countStr)).2
      = some ((countQuery s aF fF tF : Nat) : Int) := by
  have hunb : rowQuery s vid aF fF tF (rowQueryAll s vid aF fF tF).length 0
      = rowQueryAll s vid aF fF tF := by
    unfold rowQuery
    rw [List.drop_zero, List.take_length]
  refine ⟨?_, extract_sqlite _, extract_pg countStr _ hne hden⟩
  show (materializeRows (rowQuery s vid aF fF tF (rowQueryAll s vid aF fF tF).length 0)).length
      = countQuery s aF fF tF
  rw [hunb, materializeRows_length, distinct_eq_countQuery s vid aF fF tF hids]

/-- Witness for C7 at the sample store with no filters: one article, count
one, for both count representations. -/
theorem C7_count_consistency_witness :
    (getArticles sampleStore none [] [] []
        (rowQueryAll sampleStore none [] [] []).length 0 sqliteCountRes).1.length
      = countQuery sampleStore [] [] [] :=
  (C7_count_consistency sampleStore none [] [] [] "1" 20 0 (by decide) (by decide)
    (by decide)).1

end MediumClone
